import Mathlib

/-!
Verification of the BudgetBoss offline-first budgeting core: the
last-write-wins merge used by the sync engine (src/lib/sync.ts), the
budget state store's mutation operations and derived-metric selectors
(src/lib/store.ts), and the local record store's pattern table
(src/lib/db.ts). Definitions are shallow embeddings of the TypeScript
sources; ISO-8601 timestamp strings are represented by their parsed
epoch values (Int), JS numbers by rationals, and calls to
crypto.randomUUID by explicitly passed fresh identifiers.
-/

namespace BudgetBoss

/-- Budget record, models.ts. -/
structure Budget where
  id : String
  user_id : String
  month : String
  name : String
  created_at : Int
  updated_at : Int
  deleted : Bool
deriving DecidableEq

/-- Income record, models.ts. -/
structure Income where
  id : String
  budget_id : String
  name : String
  amount : ℚ
  created_at : Int
  updated_at : Int
  deleted : Bool
deriving DecidableEq

/-- Category record, models.ts; `borrowed` is signed (negative = lent out). -/
structure Category where
  id : String
  budget_id : String
  name : String
  budgeted : ℚ
  borrowed : ℚ
  color : String
  notes : Option String := none
  created_at : Int
  updated_at : Int
  deleted : Bool
deriving DecidableEq

/-- Transaction record, models.ts; `category_id` is optional (JS undefined = none). -/
structure Transaction where
  id : String
  budget_id : String
  category_id : Option String
  amount : ℚ
  description : String
  account : String
  is_unplanned : Bool
  date : Int
  created_at : Int
  updated_at : Int
  deleted : Bool
deriving DecidableEq

/-- In-memory state of the budget store, models.ts `BudgetState`. -/
structure BudgetState where
  budget : Option Budget
  incomes : List Income
  categories : List Category
  transactions : List Transaction
  loading : Bool
deriving DecidableEq

/-- Per-month plan bundle stored under `plan:month` in the local record store. -/
structure PlanData where
  budget : Option Budget
  incomes : List Income
  categories : List Category
deriving DecidableEq

/-! ## The last-write-wins merge, sync.ts `mergeArraysWithTimestamps`

The source function is generic over `T extends { id, updated_at }`; the
embedding is parameterised by the two accessors.  The JS `Map` is
modelled by an insertion-ordered association list: `set` replaces in
place when the key is present and appends otherwise, exactly the JS
`Map` semantics.  The final `Array.prototype.sort` (a stable sort by
ascending parsed `updated_at`) is modelled by a stable insertion sort. -/

/-- JS `Map.set` on an insertion-ordered list keyed by `getId`. -/
def mapSet {T : Type} (getId : T → String) (m : List T) (item : T) : List T :=
  if m.any (fun x => getId x == getId item) then
    m.map (fun x => if getId x == getId item then item else x)
  else
    m ++ [item]

/-- JS `Map.get` on an insertion-ordered list keyed by `getId`. -/
def mapGet {T : Type} (getId : T → String) (m : List T) (i : String) : Option T :=
  m.find? (fun x => getId x == i)

/-- One iteration of the remote loop of `mergeArraysWithTimestamps`:
adopt an unknown remote item; otherwise keep whichever of local/remote
has the strictly greater `updated_at`, ties keeping local. -/
def lwwStep {T : Type} (getId : T → String) (getUpdatedAt : T → Int)
    (m : List T) (remoteItem : T) : List T :=
  match mapGet getId m (getId remoteItem) with
  | none => mapSet getId m remoteItem
  | some localItem =>
    if getUpdatedAt remoteItem > getUpdatedAt localItem then
      mapSet getId m remoteItem
    else
      m

/-- sync.ts lines 212-248: seed a map from the local items, fold the
remote items with last-write-wins, and return the values sorted by
ascending `updated_at`. -/
def mergeArraysWithTimestamps {T : Type} (getId : T → String) (getUpdatedAt : T → Int)
    (localItems remoteItems : List T) : List T :=
  let itemsMap := localItems.foldl (mapSet getId) []
  let merged := remoteItems.foldl (lwwStep getId getUpdatedAt) itemsMap
  List.insertionSort (fun a b => getUpdatedAt a ≤ getUpdatedAt b) merged

/-! ## Budget state store mutations, store.ts -/

/-- Argument record of `borrowBetweenCategories`, models.ts `BorrowData`. -/
structure BorrowData where
  fromCategoryId : String
  toCategoryId : String
  amount : ℚ
  month : String
deriving DecidableEq

/-- store.ts lines 654-679: one borrow operation, acting on the in-memory
category array; `now` is the current ISO timestamp. -/
def borrowBetweenCategories (data : BorrowData) (now : Int)
    (categories : List Category) : List Category :=
  categories.map (fun category =>
    if category.id == data.fromCategoryId then
      { category with borrowed := category.borrowed - data.amount, updated_at := now }
    else if category.id == data.toCategoryId then
      { category with borrowed := category.borrowed + data.amount, updated_at := now }
    else
      category)

/-- models.ts `QuickAddData`; `amount` stands for the parseFloat value of
the source's amount string, `category_id` is the raw string (empty = none). -/
structure QuickAddData where
  amount : ℚ
  category_id : String
  description : String
  account : String
  is_unplanned : Bool
  date : Option Int
deriving DecidableEq

/-- store.ts lines 682-703: build the new transaction (forcing
`category_id` to none when unplanned, and mapping the empty category
string to none as the source's `data.category_id || undefined` does) and
prepend it to the in-memory array. -/
def addTransaction (budget : Budget) (data : QuickAddData) (freshId : String)
    (now : Int) (txs : List Transaction) : List Transaction :=
  let categoryId : Option String :=
    if data.is_unplanned then none
    else if data.category_id == "" then none
    else some data.category_id
  { id := freshId
    budget_id := budget.id
    category_id := categoryId
    amount := data.amount
    description := data.description
    account := data.account
    is_unplanned := data.is_unplanned
    date := data.date.getD now
    created_at := now
    updated_at := now
    deleted := false } :: txs

/-- Partial update record of `updateTransaction`; a `some` field models a
property present in the TS `updates` object (possibly with value
undefined, hence `Option (Option String)` for `category_id`). -/
structure TransactionUpdates where
  amount : Option ℚ := none
  description : Option String := none
  category_id : Option (Option String) := none
  account : Option String := none
  is_unplanned : Option Bool := none
  date : Option Int := none
deriving DecidableEq

/-- The object spread of store.ts line 718: present update fields
overwrite, absent ones keep the transaction's values; `updated_at` is
always refreshed. -/
def applyTransactionUpdates (tx : Transaction) (u : TransactionUpdates)
    (now : Int) : Transaction :=
  { tx with
    amount := u.amount.getD tx.amount
    description := u.description.getD tx.description
    category_id := u.category_id.getD tx.category_id
    account := u.account.getD tx.account
    is_unplanned := u.is_unplanned.getD tx.is_unplanned
    date := u.date.getD tx.date
    updated_at := now }

/-- store.ts lines 714-724: no-op when the id is unknown, otherwise
replace the matching transaction by the updated record. -/
def updateTransaction (id : String) (u : TransactionUpdates) (now : Int)
    (txs : List Transaction) : List Transaction :=
  match txs.find? (fun tx => tx.id == id) with
  | none => txs
  | some t =>
    let updated := applyTransactionUpdates t u now
    txs.map (fun tx => if tx.id == id then updated else tx)

/-- store.ts lines 729-734: drop the transaction from the in-memory array
(the local record store keeps a tombstone, not modelled here). -/
def deleteTransaction (id : String) (txs : List Transaction) : List Transaction :=
  txs.filter (fun tx => tx.id != id)

/-- One transaction operation of the store, with the environment-chosen
fresh id and current time made explicit. -/
inductive TxOp
  | add (budget : Budget) (data : QuickAddData) (freshId : String) (now : Int)
  | update (id : String) (u : TransactionUpdates) (now : Int)
  | delete (id : String)
deriving DecidableEq

/-- Apply one transaction operation to the in-memory transaction array. -/
def applyTxOp (txs : List Transaction) : TxOp → List Transaction
  | TxOp.add b d f n => addTransaction b d f n txs
  | TxOp.update i u n => updateTransaction i u n txs
  | TxOp.delete i => deleteTransaction i txs

/-! ## copyFromPreviousMonth, store.ts lines 737-779 -/

/-- Option record of `copyFromPreviousMonth`. -/
structure CopyOptions where
  incomes : Bool
  categories : Bool
deriving DecidableEq

/-- The income copy loop: each copy takes the i-th fresh id, the current
budget as owner and fresh timestamps. -/
def copyIncomes (budgetId : String) (gen : Nat → String) (now : Int) :
    Nat → List Income → List Income
  | _, [] => []
  | i, income :: rest =>
    { income with
      id := gen i
      budget_id := budgetId
      created_at := now
      updated_at := now } :: copyIncomes budgetId gen now (i + 1) rest

/-- The category copy loop: like `copyIncomes` but with `borrowed` reset to 0. -/
def copyCategories (budgetId : String) (gen : Nat → String) (now : Int) :
    Nat → List Category → List Category
  | _, [] => []
  | i, category :: rest =>
    { category with
      id := gen i
      budget_id := budgetId
      borrowed := 0
      created_at := now
      updated_at := now } :: copyCategories budgetId gen now (i + 1) rest

/-- store.ts lines 737-779: silently returns when there is no current
budget; fails when the source month has no stored plan; otherwise appends
copies of each selected dimension to the current arrays. -/
def copyFromPreviousMonth (st : BudgetState) (previousPlan : Option PlanData)
    (options : CopyOptions) (genIncomeId genCategoryId : Nat → String)
    (now : Int) : Except String BudgetState :=
  match st.budget with
  | none => Except.ok st
  | some budget =>
    match previousPlan with
    | none => Except.error "No previous month data found"
    | some previousPlan =>
      let newIncomes :=
        if options.incomes && !previousPlan.incomes.isEmpty then
          st.incomes ++ copyIncomes budget.id genIncomeId now 0 previousPlan.incomes
        else st.incomes
      let newCategories :=
        if options.categories && !previousPlan.categories.isEmpty then
          st.categories ++ copyCategories budget.id genCategoryId now 0 previousPlan.categories
        else st.categories
      Except.ok { st with incomes := newIncomes, categories := newCategories }

/-! ## Domain selectors, store.ts lines 791-915 -/

/-- models.ts `CategoryHealth`. -/
inductive CategoryHealth
  | healthy
  | warning
  | overspent
deriving DecidableEq

/-- models.ts `CategoryWithSpent`: a category enriched with the computed
`spent`, `remaining` and `health`. -/
structure CategoryWithSpent extends Category where
  spent : ℚ
  remaining : ℚ
  health : CategoryHealth
deriving DecidableEq

/-- The body of the map in store.ts lines 802-826: spent sums the amounts
of the state's transactions whose `category_id` equals this category's id;
health follows the available/overspent/warning chain. -/
def enrichCategory (s : BudgetState) (category : Category) : CategoryWithSpent :=
  let spent := (s.transactions.filter (fun tx => tx.category_id == some category.id)).foldl
    (fun sum tx => sum + tx.amount) 0
  let available := category.budgeted + category.borrowed
  let remaining := available - spent
  let health : CategoryHealth :=
    if available = 0 then CategoryHealth.healthy
    else if spent > available then CategoryHealth.overspent
    else if spent > available * 0.8 then CategoryHealth.warning
    else CategoryHealth.healthy
  { category with spent := spent, remaining := remaining, health := health }

/-- store.ts lines 801-827: `getCategoriesWithSpent`. -/
def getCategoriesWithSpent (s : BudgetState) : List CategoryWithSpent :=
  s.categories.map (enrichCategory s)

/-- store.ts lines 791-793: `getTotalIncome`. -/
def getTotalIncome (s : BudgetState) : ℚ :=
  s.incomes.foldl (fun sum income => sum + income.amount) 0

/-- store.ts lines 796-798: `getTotalBudgeted`. -/
def getTotalBudgeted (s : BudgetState) : ℚ :=
  s.categories.foldl (fun sum category => sum + (category.budgeted + category.borrowed)) 0

/-- store.ts lines 884-886: `getTotalSpent`. -/
def getTotalSpent (s : BudgetState) : ℚ :=
  s.transactions.foldl (fun sum tx => sum + tx.amount) 0

/-- store.ts lines 894-898: `getTotalUnplannedSpent`. -/
def getTotalUnplannedSpent (s : BudgetState) : ℚ :=
  (s.transactions.filter (fun tx => tx.is_unplanned)).foldl (fun sum tx => sum + tx.amount) 0

/-- store.ts lines 901-908: `getBudgetRemaining`, the amount that should
be in bank. -/
def getBudgetRemaining (s : BudgetState) : ℚ :=
  let totalBudgeted := getTotalBudgeted s
  let totalSpent := getTotalSpent s
  let totalUnplanned := getTotalUnplannedSpent s
  (totalBudgeted - totalSpent) - totalUnplanned

/-! ## Transaction patterns

The pattern table lives in the local record store (src/lib/db.ts); the
version of db.ts in the repository snapshot predates the pattern feature,
so `updatePattern` and the db-level `getFrequentPatterns` are modelled
from the spec below.  Their callers (store.ts lines 706-712 and 917-929)
are embedded from the source. -/

/-- TransactionPattern record (ARCHITECTURE.md / spec section 3). -/
structure TransactionPattern where
  id : String
  description : String
  category_id : String
  count : Nat
  last_amount : ℚ
  last_used : Int
  created_at : Int
  updated_at : Int
deriving DecidableEq

/-- Modelled from the spec: db.updatePattern is missing from the src
snapshot.  Find the existing pattern by (description, category_id) pair;
if found, increment count and overwrite `last_amount` and `last_used`;
else insert a new pattern with count 1. -/
def updatePattern (description : String) (categoryId : String) (amount : ℚ)
    (now : Int) (freshId : String)
    (patterns : List TransactionPattern) : List TransactionPattern :=
  match patterns.find? (fun p => p.description == description && p.category_id == categoryId) with
  | some _ =>
    patterns.map (fun p =>
      if p.description == description && p.category_id == categoryId then
        { p with
          count := p.count + 1
          last_amount := amount
          last_used := now
          updated_at := now }
      else p)
  | none =>
    patterns ++ [{
      id := freshId
      description := description
      category_id := categoryId
      count := 1
      last_amount := amount
      last_used := now
      created_at := now
      updated_at := now }]

/-- Descending (count, last_used) order used by frequent-pattern retrieval. -/
def patternOrder (a b : TransactionPattern) : Prop :=
  b.count < a.count ∨ (a.count = b.count ∧ b.last_used ≤ a.last_used)

instance : DecidableRel patternOrder := fun a b => by
  unfold patternOrder; infer_instance

/-- Modelled from the spec: the db-level getFrequentPatterns is missing
from the src snapshot.  Return the patterns with count at least 3, sorted
by count descending then `last_used` descending, truncated to the top 3. -/
def dbGetFrequentPatterns (patterns : List TransactionPattern) : List TransactionPattern :=
  ((patterns.filter (fun p => 3 ≤ p.count)).insertionSort patternOrder).take 3

/-- Entry shape returned by the store-level getFrequentPatterns. -/
structure FrequentPatternEntry where
  description : String
  categoryName : String
  amount : ℚ
  categoryId : String
deriving DecidableEq

/-- store.ts lines 917-929: enrich each frequent pattern with its
category's current name and silently drop patterns whose category no
longer exists. -/
def storeGetFrequentPatterns (s : BudgetState)
    (patterns : List TransactionPattern) : List FrequentPatternEntry :=
  ((dbGetFrequentPatterns patterns).map (fun pattern =>
    let category := s.categories.find? (fun c => c.id == pattern.category_id)
    { description := pattern.description
      categoryName := (category.map Category.name).getD "Unknown"
      amount := pattern.last_amount
      categoryId := pattern.category_id })).filter
    (fun p => p.categoryName != "Unknown")

/-- store.ts lines 682-712: `addTransaction` including its pattern side
effect (lines 708-711: update the pattern table exactly when the
transaction is not unplanned and has a category). -/
def addTransactionFull (budget : Budget) (data : QuickAddData)
    (freshTxId freshPatternId : String) (now : Int)
    (st : List Transaction × List TransactionPattern) :
    List Transaction × List TransactionPattern :=
  let categoryId : Option String :=
    if data.is_unplanned then none
    else if data.category_id == "" then none
    else some data.category_id
  let txs := addTransaction budget data freshTxId now st.1
  let patterns :=
    match categoryId with
    | some cid =>
      if data.is_unplanned then st.2
      else updatePattern data.description cid data.amount now freshPatternId st.2
    | none => st.2
  (txs, patterns)

/-! ## Sync engine, sync.ts

The remote store and the fallible network are modelled by passing each
remote interaction's outcome explicitly: the whole remote part of the
pull (ensure-budget plus the two selects) is one `Except` input, and the
local key-value store (assumed always available, spec section 7) is the
per-month stored plan. -/

/-- Opaque sync-time failure (network, remote store, ensure-budget). -/
inductive SyncError
  | network
deriving DecidableEq

/-- Successful outcome of the remote part of `pullPlan`: the resolved
budget from ensure-budget and the non-deleted remote incomes and
categories for it. -/
structure RemotePull where
  budget : Budget
  remoteIncomes : List Income
  remoteCategories : List Category
deriving DecidableEq

/-- sync.ts lines 145-210: on success, save the last-write-wins merge of
local and remote arrays under the resolved budget; on any failure, keep
the local plan intact (synthesizing `freshBudget` as a wrapper when the
plan had none) and rethrow.  Returns the stored plan after the step and
the step's outcome. -/
def pullPlan (stored : Option PlanData)
    (remote : Except SyncError RemotePull) (freshBudget : Budget) :
    Option PlanData × Except SyncError Unit :=
  match remote with
  | Except.ok res =>
    let localIncomes := (stored.map PlanData.incomes).getD []
    let localCategories := (stored.map PlanData.categories).getD []
    let finalIncomes :=
      mergeArraysWithTimestamps Income.id Income.updated_at localIncomes res.remoteIncomes
    let finalCategories :=
      mergeArraysWithTimestamps Category.id Category.updated_at localCategories
        res.remoteCategories
    (some {
      budget := some res.budget
      incomes := finalIncomes
      categories := finalCategories }, Except.ok ())
  | Except.error e =>
    match stored with
    | none => (none, Except.error e)
    | some localPlan =>
      (some {
        budget := some (localPlan.budget.getD freshBudget)
        incomes := localPlan.incomes
        categories := localPlan.categories }, Except.error e)

/-- Sync bookkeeping stored under `syncState`. -/
structure SyncState where
  lastSync : Option Int
  pendingChanges : List String
deriving DecidableEq

/-- sync.ts lines 266-331: `fullSync`.  The push outcome (step 1) and the
transaction-sync outcome (step 3) are caught and swallowed by the source;
the pull outcome (step 2) is caught, and on pull failure the local plan
read at entry is re-saved with `freshBudget2` synthesized as a wrapper
when it had no budget.  The local key-value operations are assumed
available, so the source's outer catch (which alone raises the "Sync
unavailable" error) is never reached.  Returns the stored plan, the sync
state, and the call's outcome. -/
def fullSync (stored : Option PlanData)
    (pushOutcome : Except SyncError Unit)
    (remote : Except SyncError RemotePull)
    (txSyncOutcome : Except SyncError Unit)
    (freshBudget freshBudget2 : Budget)
    (syncState : SyncState) (now : Int) :
    Option PlanData × SyncState × Except String Unit :=
  let _step1 := pushOutcome
  let pullResult := pullPlan stored remote freshBudget
  let stored2 :=
    match pullResult.2 with
    | Except.ok _ => pullResult.1
    | Except.error _ =>
      match stored with
      | some localPlan =>
        some {
          budget := some (localPlan.budget.getD freshBudget2)
          incomes := localPlan.incomes
          categories := localPlan.categories }
      | none => pullResult.1
  let _step3 :=
    match stored2 with
    | some p => match p.budget with | some _ => txSyncOutcome | none => Except.ok ()
    | none => Except.ok ()
  (stored2, { syncState with lastSync := some now }, Except.ok ())

/-! ## Lemmas about the map model and the last-write-wins fold -/

section MergeLemmas

variable {T : Type} {getId : T → String} {getUpdatedAt : T → Int}

theorem mapSet_of_not_any {m : List T} {item : T}
    (h : m.any (fun x => getId x == getId item) = false) :
    mapSet getId m item = m ++ [item] := by
  simp [mapSet, h]

theorem foldl_mapSet_eq_append :
    ∀ (l acc : List T), (((acc ++ l).map getId).Nodup) →
      l.foldl (mapSet getId) acc = acc ++ l
  | [], acc, _ => by simp
  | a :: l, acc, h => by
    have hid : getId a ∉ acc.map getId := by
      rw [List.map_append, List.nodup_append] at h
      intro hmem
      exact h.2.2 hmem (by simp)
    have hany : acc.any (fun x => getId x == getId a) = false := by
      rw [List.any_eq_false]
      intro x hx hbeq
      exact hid (List.mem_map.mpr ⟨x, hx, (beq_iff_eq.mp hbeq)⟩)
    have hstep : (a :: l).foldl (mapSet getId) acc = l.foldl (mapSet getId) (acc ++ [a]) := by
      rw [List.foldl_cons, mapSet_of_not_any hany]
    rw [hstep, foldl_mapSet_eq_append l (acc ++ [a]) (by simpa using h)]
    simp

theorem find?_map_replace (item : T) (m : List T) :
    (m.map (fun x => if getId x == getId item then item else x)).find?
      (fun x => getId x == getId item) =
    if m.any (fun x => getId x == getId item) then some item else none := by
  induction m with
  | nil => simp
  | cons y m ih =>
    by_cases h : (getId y == getId item) = true
    · rw [List.map_cons, if_pos h, List.any_cons, h, Bool.true_or, if_pos rfl]
      simp [List.find?_cons]
    · have h' : (getId y == getId item) = false := by
        cases heq : (getId y == getId item) with
        | true => exact absurd heq h
        | false => rfl
      rw [List.map_cons, if_neg h, List.any_cons, h', Bool.false_or]
      simp only [List.find?_cons, h']
      exact ih

theorem find?_map_replace_ne {item : T} {j : String} (h : ¬ j = getId item) (m : List T) :
    (m.map (fun x => if getId x == getId item then item else x)).find?
      (fun x => getId x == j) =
    m.find? (fun x => getId x == j) := by
  induction m with
  | nil => simp
  | cons y m ih =>
    by_cases hy : (getId y == getId item) = true
    · have hyid : getId y = getId item := beq_iff_eq.mp hy
      have hitem : (getId item == j) = false := by
        cases heq : (getId item == j) with
        | true => exact absurd (beq_iff_eq.mp heq).symm h
        | false => rfl
      have hyj : (getId y == j) = false := by rw [hyid]; exact hitem
      rw [List.map_cons, if_pos hy]
      simp only [List.find?_cons, hitem, hyj]
      exact ih
    · cases hyj : (getId y == j) with
      | true =>
        rw [List.map_cons, if_neg hy]
        simp only [List.find?_cons, hyj]
      | false =>
        rw [List.map_cons, if_neg hy]
        simp only [List.find?_cons, hyj]
        exact ih

theorem mapGet_mapSet_same (m : List T) (item : T) :
    mapGet getId (mapSet getId m item) (getId item) = some item := by
  unfold mapSet mapGet
  cases hany : m.any (fun x => getId x == getId item) with
  | true => rw [if_pos rfl, find?_map_replace, hany, if_pos rfl]
  | false =>
    rw [if_neg (by simp [hany]), List.find?_append]
    have hm : m.find? (fun x => getId x == getId item) = none := by
      rw [List.find?_eq_none]
      intro x hx
      exact (List.any_eq_false.mp hany) x hx
    simp [hm]

theorem mapGet_mapSet_ne {j : String} {item : T} (h : ¬ j = getId item) (m : List T) :
    mapGet getId (mapSet getId m item) j = mapGet getId m j := by
  unfold mapSet mapGet
  cases hany : m.any (fun x => getId x == getId item) with
  | true => rw [if_pos rfl, find?_map_replace_ne h]
  | false =>
    rw [if_neg (by simp [hany]), List.find?_append]
    have hitem : (getId item == j) = false := by
      cases heq : (getId item == j) with
      | true => exact absurd (beq_iff_eq.mp heq).symm h
      | false => rfl
    cases hm : m.find? (fun x => getId x == j) with
    | some x => rfl
    | none => simp [hitem]

theorem mapSet_mem {x item : T} {m : List T} (h : x ∈ mapSet getId m item) :
    x ∈ m ∨ x = item := by
  unfold mapSet at h
  by_cases hany : m.any (fun y => getId y == getId item) = true
  · rw [if_pos hany] at h
    obtain ⟨y, hy, hxy⟩ := List.mem_map.mp h
    by_cases hc : (getId y == getId item) = true
    · right; rw [if_pos hc] at hxy; exact hxy.symm
    · left; rw [if_neg hc] at hxy; exact hxy ▸ hy
  · rw [if_neg hany] at h
    rcases List.mem_append.mp h with h' | h'
    · exact Or.inl h'
    · exact Or.inr (List.mem_singleton.mp h')

theorem mapSet_map_getId (m : List T) (item : T) :
    (mapSet getId m item).map getId =
      if m.any (fun x => getId x == getId item) then m.map getId
      else m.map getId ++ [getId item] := by
  unfold mapSet
  cases hany : m.any (fun x => getId x == getId item) with
  | true =>
    rw [if_pos rfl, if_pos rfl, List.map_map]
    refine List.map_congr_left ?_
    intro a _
    by_cases hc : getId a = getId item
    · rw [Function.comp_apply, if_pos (beq_iff_eq.mpr hc)]
      exact hc.symm
    · rw [Function.comp_apply, if_neg (fun hbeq => hc (beq_iff_eq.mp hbeq))]
  | false => simp

theorem mapSet_nodup {m : List T} {item : T} (h : (m.map getId).Nodup) :
    ((mapSet getId m item).map getId).Nodup := by
  rw [mapSet_map_getId]
  cases hany : m.any (fun x => getId x == getId item) with
  | true => simpa using h
  | false =>
    rw [if_neg (by simp)]
    rw [List.nodup_append]
    refine ⟨h, List.nodup_singleton _, ?_⟩
    intro a ha ha'
    rw [List.mem_singleton] at ha'
    subst ha'
    obtain ⟨x, hx, hxa⟩ := List.mem_map.mp ha
    have hx' : m.any (fun y => getId y == getId item) = true :=
      List.any_eq_true.mpr ⟨x, hx, beq_iff_eq.mpr hxa⟩
    rw [hany] at hx'
    exact Bool.false_ne_true hx'

theorem lwwStep_nodup {m : List T} {remoteItem : T} (h : (m.map getId).Nodup) :
    ((lwwStep getId getUpdatedAt m remoteItem).map getId).Nodup := by
  cases hget : mapGet getId m (getId remoteItem) with
  | none =>
    simp only [lwwStep, hget]
    exact mapSet_nodup h
  | some localItem =>
    by_cases hlt : getUpdatedAt remoteItem > getUpdatedAt localItem
    · simp only [lwwStep, hget]
      rw [if_pos hlt]
      exact mapSet_nodup h
    · simp only [lwwStep, hget]
      rw [if_neg hlt]
      exact h

theorem lwwStep_mem {x remoteItem : T} {m : List T}
    (h : x ∈ lwwStep getId getUpdatedAt m remoteItem) : x ∈ m ∨ x = remoteItem := by
  cases hget : mapGet getId m (getId remoteItem) with
  | none =>
    simp only [lwwStep, hget] at h
    exact mapSet_mem h
  | some localItem =>
    simp only [lwwStep, hget] at h
    by_cases hlt : getUpdatedAt remoteItem > getUpdatedAt localItem
    · rw [if_pos hlt] at h; exact mapSet_mem h
    · rw [if_neg hlt] at h; exact Or.inl h

theorem lwwStep_mapGet_same (m : List T) (remoteItem : T) :
    mapGet getId (lwwStep getId getUpdatedAt m remoteItem) (getId remoteItem) =
      match mapGet getId m (getId remoteItem) with
      | none => some remoteItem
      | some localItem =>
        some (if getUpdatedAt remoteItem > getUpdatedAt localItem then remoteItem
          else localItem) := by
  cases hget : mapGet getId m (getId remoteItem) with
  | none =>
    simp only [lwwStep, hget]
    exact mapGet_mapSet_same m remoteItem
  | some localItem =>
    by_cases hlt : getUpdatedAt remoteItem > getUpdatedAt localItem
    · simp only [lwwStep, hget]
      rw [if_pos hlt, if_pos hlt, mapGet_mapSet_same]
    · simp only [lwwStep, hget]
      rw [if_neg hlt, if_neg hlt, hget]

theorem lwwStep_mapGet_ne {j : String} {remoteItem : T} (h : ¬ j = getId remoteItem)
    (m : List T) :
    mapGet getId (lwwStep getId getUpdatedAt m remoteItem) j = mapGet getId m j := by
  cases hget : mapGet getId m (getId remoteItem) with
  | none =>
    simp only [lwwStep, hget]
    exact mapGet_mapSet_ne h m
  | some localItem =>
    by_cases hlt : getUpdatedAt remoteItem > getUpdatedAt localItem
    · simp only [lwwStep, hget]
      rw [if_pos hlt]
      exact mapGet_mapSet_ne h m
    · simp only [lwwStep, hget]
      rw [if_neg hlt]

theorem foldl_lwwStep_nodup :
    ∀ (r : List T) (m : List T), (m.map getId).Nodup →
      ((r.foldl (lwwStep getId getUpdatedAt) m).map getId).Nodup
  | [], _, h => h
  | R :: r, m, h =>
    foldl_lwwStep_nodup r (lwwStep getId getUpdatedAt m R) (lwwStep_nodup h)

theorem foldl_lwwStep_mem :
    ∀ (r : List T) (m : List T) (x : T), x ∈ r.foldl (lwwStep getId getUpdatedAt) m →
      x ∈ m ∨ x ∈ r
  | [], _, _, h => Or.inl h
  | R :: r, m, x, h => by
    rcases foldl_lwwStep_mem r (lwwStep getId getUpdatedAt m R) x h with h' | h'
    · rcases lwwStep_mem h' with h'' | h''
      · exact Or.inl h''
      · exact Or.inr (h'' ▸ List.mem_cons_self R r)
    · exact Or.inr (List.mem_cons_of_mem R h')

theorem foldl_lwwStep_mapGet_not_mem :
    ∀ (r : List T) (m : List T) {j : String}, j ∉ r.map getId →
      mapGet getId (r.foldl (lwwStep getId getUpdatedAt) m) j = mapGet getId m j
  | [], _, _, _ => rfl
  | R :: r, m, j, h => by
    have hne : ¬ j = getId R := fun hj => h (by simp [hj])
    have htail : j ∉ r.map getId := fun hj => h (by simp [hj])
    rw [List.foldl_cons,
      foldl_lwwStep_mapGet_not_mem r (lwwStep getId getUpdatedAt m R) htail,
      lwwStep_mapGet_ne hne]

theorem foldl_lwwStep_mapGet_of_mem :
    ∀ (r : List T) (m : List T) {R : T}, (r.map getId).Nodup → R ∈ r →
      mapGet getId (r.foldl (lwwStep getId getUpdatedAt) m) (getId R) =
        match mapGet getId m (getId R) with
        | none => some R
        | some localItem =>
          some (if getUpdatedAt R > getUpdatedAt localItem then R else localItem)
  | [], _, _, _, hR => absurd hR (List.not_mem_nil _)
  | R' :: r, m, R, hnodup, hR => by
    rcases List.mem_cons.mp hR with rfl | hR'
    · have hnotin : getId R ∉ r.map getId := by
        rw [List.map_cons, List.nodup_cons] at hnodup
        exact hnodup.1
      rw [List.foldl_cons,
        foldl_lwwStep_mapGet_not_mem r (lwwStep getId getUpdatedAt m R) hnotin,
        lwwStep_mapGet_same]
    · have hne : ¬ getId R = getId R' := by
        rw [List.map_cons, List.nodup_cons] at hnodup
        intro heq
        exact hnodup.1 (heq ▸ List.mem_map.mpr ⟨R, hR', rfl⟩)
      rw [List.foldl_cons,
        foldl_lwwStep_mapGet_of_mem r (lwwStep getId getUpdatedAt m R')
          (by rw [List.map_cons, List.nodup_cons] at hnodup; exact hnodup.2) hR',
        lwwStep_mapGet_ne hne]

theorem mapGet_eq_some_of_mem :
    ∀ {m : List T} {x : T}, ((m.map getId).Nodup) → x ∈ m →
      mapGet getId m (getId x) = some x := by
  intro m
  induction m with
  | nil => intro x _ hx; exact absurd hx (List.not_mem_nil _)
  | cons y m ih =>
    intro x hnodup hx
    rcases List.mem_cons.mp hx with rfl | hx'
    · unfold mapGet
      simp [List.find?_cons]
    · have hne : (getId y == getId x) = false := by
        rw [List.map_cons, List.nodup_cons] at hnodup
        cases heq : (getId y == getId x) with
        | true =>
          exact absurd ((beq_iff_eq.mp heq) ▸ List.mem_map.mpr ⟨x, hx', rfl⟩) hnodup.1
        | false => rfl
      unfold mapGet
      rw [List.find?_cons_of_neg _ (by simp [hne])]
      exact ih (by rw [List.map_cons, List.nodup_cons] at hnodup; exact hnodup.2) hx'

theorem mem_of_mapGet {m : List T} {j : String} {x : T}
    (h : mapGet getId m j = some x) : x ∈ m ∧ getId x = j := by
  unfold mapGet at h
  have hbeq := List.find?_some h
  exact ⟨List.mem_of_find?_eq_some h, by simpa using hbeq⟩

theorem mapGet_eq_none {m : List T} {j : String} (h : j ∉ m.map getId) :
    mapGet getId m j = none := by
  unfold mapGet
  rw [List.find?_eq_none]
  intro x hx hbeq
  exact h (List.mem_map.mpr ⟨x, hx, beq_iff_eq.mp hbeq⟩)

end MergeLemmas

/-! ## Claims C1 and C10: the last-write-wins merge -/

/-- Claim C1: the merge used in the pull step, applied to a local and a
remote array of records carrying id and updated_at, returns for every id
present in either array exactly one record (output ids are duplicate-free
and every output record comes from one input): the remote record if no
local record with that id exists; otherwise the one with the strictly
greater updated_at, ties (equal updated_at) keeping the local record;
and a local record whose id is absent remotely survives unchanged. -/
theorem C1_merge_last_write_wins {T : Type} (getId : T → String) (getUpdatedAt : T → Int)
    (localItems remoteItems : List T)
    (hl : (localItems.map getId).Nodup) (hr : (remoteItems.map getId).Nodup) :
    ((mergeArraysWithTimestamps getId getUpdatedAt localItems remoteItems).map getId).Nodup ∧
    (∀ x ∈ mergeArraysWithTimestamps getId getUpdatedAt localItems remoteItems,
      x ∈ localItems ∨ x ∈ remoteItems) ∧
    (∀ R ∈ remoteItems, getId R ∉ localItems.map getId →
      R ∈ mergeArraysWithTimestamps getId getUpdatedAt localItems remoteItems) ∧
    (∀ L ∈ localItems, ∀ R ∈ remoteItems, getId L = getId R →
      (if getUpdatedAt R > getUpdatedAt L then R else L) ∈
        mergeArraysWithTimestamps getId getUpdatedAt localItems remoteItems) ∧
    (∀ L ∈ localItems, getId L ∉ remoteItems.map getId →
      L ∈ mergeArraysWithTimestamps getId getUpdatedAt localItems remoteItems) := by
  have hseed : localItems.foldl (mapSet getId) [] = localItems :=
    foldl_mapSet_eq_append localItems [] (by simpa using hl)
  have hdef : mergeArraysWithTimestamps getId getUpdatedAt localItems remoteItems =
      List.insertionSort (fun a b => getUpdatedAt a ≤ getUpdatedAt b)
        (remoteItems.foldl (lwwStep getId getUpdatedAt) localItems) := by
    unfold mergeArraysWithTimestamps
    rw [hseed]
  have hperm := List.perm_insertionSort (fun a b => getUpdatedAt a ≤ getUpdatedAt b)
    (remoteItems.foldl (lwwStep getId getUpdatedAt) localItems)
  have hmem : ∀ x : T,
      (x ∈ mergeArraysWithTimestamps getId getUpdatedAt localItems remoteItems ↔
        x ∈ remoteItems.foldl (lwwStep getId getUpdatedAt) localItems) := by
    intro x
    rw [hdef]
    exact hperm.mem_iff
  refine ⟨?_, ?_, ?_, ?_, ?_⟩
  · rw [hdef]
    exact ((hperm.map getId).nodup_iff).mpr (foldl_lwwStep_nodup remoteItems localItems hl)
  · intro x hx
    exact foldl_lwwStep_mem remoteItems localItems x ((hmem x).mp hx)
  · intro R hR hRnotin
    refine (hmem R).mpr ?_
    have hget := @foldl_lwwStep_mapGet_of_mem T getId getUpdatedAt
      remoteItems localItems R hr hR
    rw [mapGet_eq_none hRnotin] at hget
    exact (mem_of_mapGet hget).1
  · intro L hL R hR hid
    refine (hmem _).mpr ?_
    have hget := @foldl_lwwStep_mapGet_of_mem T getId getUpdatedAt
      remoteItems localItems R hr hR
    rw [← hid, mapGet_eq_some_of_mem hl hL] at hget
    exact (mem_of_mapGet hget).1
  · intro L hL hLnotin
    refine (hmem L).mpr ?_
    have hget := @foldl_lwwStep_mapGet_not_mem T getId getUpdatedAt
      remoteItems localItems (getId L) hLnotin
    rw [mapGet_eq_some_of_mem hl hL] at hget
    exact (mem_of_mapGet hget).1

/-- Local income record of the C1 witness: id "a", edited at time 5. -/
def exIncomeL : Income :=
  { id := "a", budget_id := "b1", name := "Salary", amount := 100, created_at := 0,
    updated_at := 5, deleted := false }

/-- Remote income record of the C1 witness: same id "a", edited later, at time 9. -/
def exIncomeR : Income :=
  { id := "a", budget_id := "b1", name := "Salary edited", amount := 120, created_at := 0,
    updated_at := 9, deleted := false }

/-- Remote-only income record of the C1 witness: id "b", edited at time 1. -/
def exIncomeR2 : Income :=
  { id := "b", budget_id := "b1", name := "Bonus", amount := 30, created_at := 0,
    updated_at := 1, deleted := false }

theorem C1_witness :
    ([exIncomeL].map Income.id).Nodup ∧
    ([exIncomeR, exIncomeR2].map Income.id).Nodup ∧
    (if exIncomeR.updated_at > exIncomeL.updated_at then exIncomeR else exIncomeL) ∈
      mergeArraysWithTimestamps Income.id Income.updated_at [exIncomeL]
        [exIncomeR, exIncomeR2] := by
  refine ⟨by decide, by decide, ?_⟩
  exact (C1_merge_last_write_wins Income.id Income.updated_at [exIncomeL]
    [exIncomeR, exIncomeR2] (by decide) (by decide)).2.2.2.1 exIncomeL (by decide)
    exIncomeR (by decide) (by decide)

/-- Claim C10: the pull step's merge returns its records sorted in
ascending order of updated_at: every adjacent pair of the output
satisfies updated_at(left) ≤ updated_at(right). -/
theorem C10_merge_sorted_by_updated_at {T : Type} (getId : T → String)
    (getUpdatedAt : T → Int) (localItems remoteItems : List T) :
    (mergeArraysWithTimestamps getId getUpdatedAt localItems remoteItems).Pairwise
      (fun a b => getUpdatedAt a ≤ getUpdatedAt b) := by
  unfold mergeArraysWithTimestamps
  exact @List.sorted_insertionSort T (fun a b => getUpdatedAt a ≤ getUpdatedAt b)
    (fun a b => inferInstance) ⟨fun a b => le_total _ _⟩
    ⟨fun a b c hab hbc => le_trans hab hbc⟩ _

/-! ## Claim C2: the borrow operation preserves the zero-sum invariant -/

/-- Sum of the signed `borrowed` field over a category array. -/
def sumBorrowed (categories : List Category) : ℚ :=
  (categories.map Category.borrowed).sum

/-- A sequence of borrow operations, each an argument record paired with
its invocation time, folded over the category array. -/
def applyBorrows (categories : List Category) (ops : List (BorrowData × Int)) :
    List Category :=
  ops.foldl (fun cats op => borrowBetweenCategories op.1 op.2 cats) categories

theorem borrow_map_id (data : BorrowData) (now : Int) (categories : List Category) :
    (borrowBetweenCategories data now categories).map Category.id =
      categories.map Category.id := by
  unfold borrowBetweenCategories
  rw [List.map_map]
  refine List.map_congr_left ?_
  intro c _
  by_cases h1 : c.id = data.fromCategoryId
  · simp [h1]
  · by_cases h2 : c.id = data.toCategoryId
    · simp only [Function.comp_apply]
      rw [if_neg (fun hb => h1 (beq_iff_eq.mp hb)), if_pos (beq_iff_eq.mpr h2)]
    · simp [h1, h2]

theorem countP_id_eq_one {categories : List Category} {i : String}
    (hnodup : (categories.map Category.id).Nodup)
    (hmem : i ∈ categories.map Category.id) :
    (categories.countP (fun c => c.id == i) : ℚ) = 1 := by
  have h1 : (categories.map Category.id).count i = 1 :=
    List.count_eq_one_of_mem hnodup hmem
  rw [List.count, List.countP_map] at h1
  have h2 : categories.countP (fun c => c.id == i) = 1 := h1
  rw [h2]
  norm_num

theorem borrow_sum (data : BorrowData) (now : Int) (categories : List Category)
    (hne : data.fromCategoryId ≠ data.toCategoryId) :
    sumBorrowed (borrowBetweenCategories data now categories) =
      sumBorrowed categories
        - (categories.countP (fun c => c.id == data.fromCategoryId) : ℚ) * data.amount
        + (categories.countP (fun c => c.id == data.toCategoryId) : ℚ) * data.amount := by
  induction categories with
  | nil => simp [sumBorrowed, borrowBetweenCategories]
  | cons c cats ih =>
    by_cases h1 : (c.id == data.fromCategoryId) = true
    · have h2 : (c.id == data.toCategoryId) = false := by
        cases heq : (c.id == data.toCategoryId) with
        | true =>
          exact absurd ((beq_iff_eq.mp h1) ▸ beq_iff_eq.mp heq) hne
        | false => rfl
      simp only [sumBorrowed, borrowBetweenCategories, List.map_cons, List.sum_cons,
        List.countP_cons, h1, h2, if_pos, if_true, if_false, Bool.false_eq_true,
        cond_true, cond_false] at *
      rw [ih]
      push_cast
      ring
    · by_cases h2 : (c.id == data.toCategoryId) = true
      · simp only [sumBorrowed, borrowBetweenCategories, List.map_cons, List.sum_cons,
          List.countP_cons, h1, h2, Bool.false_eq_true, if_true, if_false] at *
        rw [ih]
        push_cast
        ring
      · simp only [sumBorrowed, borrowBetweenCategories, List.map_cons, List.sum_cons,
          List.countP_cons, h1, h2, Bool.false_eq_true, if_false] at *
        rw [ih]
        push_cast
        ring

theorem borrow_sum_zero (data : BorrowData) (now : Int) (categories : List Category)
    (hne : data.fromCategoryId ≠ data.toCategoryId)
    (hnodup : (categories.map Category.id).Nodup)
    (hfrom : data.fromCategoryId ∈ categories.map Category.id)
    (hto : data.toCategoryId ∈ categories.map Category.id)
    (h0 : sumBorrowed categories = 0) :
    sumBorrowed (borrowBetweenCategories data now categories) = 0 := by
  rw [borrow_sum data now categories hne, countP_id_eq_one hnodup hfrom,
    countP_id_eq_one hnodup hto, h0]
  ring

theorem applyBorrows_zero :
    ∀ (ops : List (BorrowData × Int)) (categories : List Category),
      (categories.map Category.id).Nodup → sumBorrowed categories = 0 →
      (∀ op ∈ ops, op.1.fromCategoryId ≠ op.1.toCategoryId ∧
        op.1.fromCategoryId ∈ categories.map Category.id ∧
        op.1.toCategoryId ∈ categories.map Category.id) →
      sumBorrowed (applyBorrows categories ops) = 0
  | [], _, _, h0, _ => h0
  | op :: ops, cats, hnodup, h0, hops => by
    have hop := hops op (List.mem_cons_self op ops)
    have hids := borrow_map_id op.1 op.2 cats
    have hstep : sumBorrowed (borrowBetweenCategories op.1 op.2 cats) = 0 :=
      borrow_sum_zero op.1 op.2 cats hop.1 hnodup hop.2.1 hop.2.2 h0
    have hrest : applyBorrows cats (op :: ops) =
        applyBorrows (borrowBetweenCategories op.1 op.2 cats) ops := rfl
    rw [hrest]
    exact applyBorrows_zero ops (borrowBetweenCategories op.1 op.2 cats)
      (by rw [hids]; exact hnodup) hstep
      (fun op' hop' => by rw [hids]; exact hops op' (List.mem_cons_of_mem op hop'))

/-- Claim C2: for every sequence of borrow operations within one budget,
each with distinct source and destination both present among the budget's
categories (whose ids are unique), starting from a zero sum of `borrowed`,
the sum of `borrowed` over all categories is zero after each operation;
and each operation debits the source's `borrowed` and credits the
destination's `borrowed` by the amount in the one state transition. -/
theorem C2_borrow_zero_sum (categories : List Category) (ops : List (BorrowData × Int))
    (hnodup : (categories.map Category.id).Nodup)
    (h0 : sumBorrowed categories = 0)
    (hops : ∀ op ∈ ops, op.1.fromCategoryId ≠ op.1.toCategoryId ∧
      op.1.fromCategoryId ∈ categories.map Category.id ∧
      op.1.toCategoryId ∈ categories.map Category.id) :
    (∀ n : Nat, sumBorrowed (applyBorrows categories (ops.take n)) = 0) ∧
    (∀ (d : BorrowData) (now : Int) (c : Category), c ∈ categories →
      c.id = d.fromCategoryId →
      { c with borrowed := c.borrowed - d.amount, updated_at := now } ∈
        borrowBetweenCategories d now categories) ∧
    (∀ (d : BorrowData) (now : Int) (c : Category), c ∈ categories →
      c.id = d.toCategoryId → c.id ≠ d.fromCategoryId →
      { c with borrowed := c.borrowed + d.amount, updated_at := now } ∈
        borrowBetweenCategories d now categories) := by
  refine ⟨?_, ?_, ?_⟩
  · intro n
    refine applyBorrows_zero (ops.take n) categories hnodup h0 ?_
    intro op hop
    exact hops op (List.mem_of_mem_take hop)
  · intro d now c hc hcid
    unfold borrowBetweenCategories
    refine List.mem_map.mpr ⟨c, hc, ?_⟩
    rw [if_pos (beq_iff_eq.mpr hcid)]
  · intro d now c hc hcid hcne
    unfold borrowBetweenCategories
    refine List.mem_map.mpr ⟨c, hc, ?_⟩
    rw [if_neg (fun hbeq => hcne (beq_iff_eq.mp hbeq)), if_pos (beq_iff_eq.mpr hcid)]

/-- First category of the C2 witness, borrowed 0. -/
def exCatC2a : Category :=
  { id := "c1", budget_id := "b1", name := "Food", budgeted := 100, borrowed := 0,
    color := "#fff", created_at := 0, updated_at := 0, deleted := false }

/-- Second category of the C2 witness, borrowed 0. -/
def exCatC2b : Category :=
  { id := "c2", budget_id := "b1", name := "Fun", budgeted := 50, borrowed := 0,
    color := "#fff", created_at := 0, updated_at := 0, deleted := false }

/-- One borrow of 5 from c1 to c2 at time 7. -/
def exBorrowOp : BorrowData × Int :=
  ({ fromCategoryId := "c1", toCategoryId := "c2", amount := 5, month := "2025-08" }, 7)

theorem C2_witness :
    sumBorrowed (applyBorrows [exCatC2a, exCatC2b] ([exBorrowOp].take 1)) = 0 :=
  (C2_borrow_zero_sum [exCatC2a, exCatC2b] [exBorrowOp] (by decide)
    (by simp [sumBorrowed, exCatC2a, exCatC2b])
    (by intro op hop; simp at hop; subst hop; refine ⟨by decide, by decide, by decide⟩)).1 1

/-! ## Claim C3: category spent / remaining / health -/

theorem foldl_add_eq_sum {A : Type} (f : A → ℚ) :
    ∀ (l : List A) (a : ℚ), l.foldl (fun s x => s + f x) a = a + (l.map f).sum
  | [], a => by simp
  | x :: l, a => by
    rw [List.foldl_cons, foldl_add_eq_sum f l (a + f x), List.map_cons, List.sum_cons]
    ring

/-- Category of the C3 and C7 examples: budgeted 1000, borrowed 0. -/
def exCat : Category :=
  { id := "c1", budget_id := "b1", name := "Food", budgeted := 1000, borrowed := 0,
    color := "#fff", created_at := 0, updated_at := 0, deleted := false }

/-- An unplanned transaction that nevertheless carries a category_id, as
updateTransaction can produce. -/
def cexTxUnplanned : Transaction :=
  { id := "t9", budget_id := "b1", category_id := some "c1", amount := 100,
    description := "Taxi", account := "cash", is_unplanned := true, date := 0,
    created_at := 0, updated_at := 0, deleted := false }

/-- Snapshot holding the categorized unplanned transaction. -/
def cexState : BudgetState :=
  { budget := none, incomes := [], categories := [exCat],
    transactions := [cexTxUnplanned], loading := false }

/-- Claim C3 as stated is false: on a snapshot holding an unplanned
transaction that carries a category_id (reachable via updateTransaction),
the computed spent (100) differs from the claimed sum over non-deleted,
non-unplanned matching transactions (0). -/
theorem C3_counterexample :
    (enrichCategory cexState exCat).spent ≠
      ((cexState.transactions.filter (fun tx =>
        !tx.deleted && !tx.is_unplanned && tx.category_id == some exCat.id)).map
        Transaction.amount).sum := by
  norm_num [enrichCategory, cexState, cexTxUnplanned, exCat, List.filter_cons,
    List.filter_nil, List.foldl_cons, List.foldl_nil]

/-- Claim C3, amended: the computed spent sums the amounts of all
snapshot transactions whose category_id equals the category's id
(regardless of their unplanned flag); remaining and health are as
claimed; and when every unplanned transaction in the snapshot is
uncategorized and every transaction is non-deleted, spent coincides with
the claimed sum over non-deleted, non-unplanned matching transactions. -/
theorem C3_spent_remaining_health (s : BudgetState) (category : Category)
    (hc : category ∈ s.categories) :
    enrichCategory s category ∈ getCategoriesWithSpent s ∧
    (enrichCategory s category).spent =
      ((s.transactions.filter (fun tx => tx.category_id == some category.id)).map
        Transaction.amount).sum ∧
    (enrichCategory s category).remaining =
      (category.budgeted + category.borrowed) - (enrichCategory s category).spent ∧
    (enrichCategory s category).health =
      (if category.budgeted + category.borrowed = 0 then CategoryHealth.healthy
       else if (enrichCategory s category).spent >
           category.budgeted + category.borrowed then CategoryHealth.overspent
       else if (enrichCategory s category).spent >
           0.8 * (category.budgeted + category.borrowed) then CategoryHealth.warning
       else CategoryHealth.healthy) ∧
    ((∀ tx ∈ s.transactions, tx.is_unplanned = true → tx.category_id = none) →
     (∀ tx ∈ s.transactions, tx.deleted = false) →
      (enrichCategory s category).spent =
        ((s.transactions.filter (fun tx =>
          !tx.deleted && !tx.is_unplanned && tx.category_id == some category.id)).map
          Transaction.amount).sum) := by
  have hspent : (enrichCategory s category).spent =
      ((s.transactions.filter (fun tx => tx.category_id == some category.id)).map
        Transaction.amount).sum := by
    simp only [enrichCategory]
    rw [foldl_add_eq_sum, zero_add]
  refine ⟨List.mem_map.mpr ⟨category, hc, rfl⟩, hspent, by rfl, ?_, ?_⟩
  · rw [mul_comm (0.8 : ℚ) (category.budgeted + category.borrowed)]
    rfl
  · intro hunp hdel
    rw [hspent]
    have hfilter : s.transactions.filter (fun tx => tx.category_id == some category.id) =
        s.transactions.filter (fun tx =>
          !tx.deleted && !tx.is_unplanned && tx.category_id == some category.id) := by
      refine List.filter_congr ?_
      intro tx htx
      have hd : tx.deleted = false := hdel tx htx
      by_cases hu : tx.is_unplanned = true
      · have hcat : tx.category_id = none := hunp tx htx hu
        simp [hd, hu, hcat]
      · have hu' : tx.is_unplanned = false := by
          cases h : tx.is_unplanned with
          | false => rfl
          | true => exact absurd h hu
        simp [hd, hu']
    rw [hfilter]

/-- A non-unplanned categorized transaction of amount 850. -/
def exTx850 : Transaction :=
  { id := "t1", budget_id := "b1", category_id := some "c1", amount := 850,
    description := "Groceries", account := "cash", is_unplanned := false, date := 0,
    created_at := 0, updated_at := 0, deleted := false }

/-- A second matching transaction of amount 200. -/
def exTx200 : Transaction :=
  { id := "t2", budget_id := "b1", category_id := some "c1", amount := 200,
    description := "More groceries", account := "cash", is_unplanned := false, date := 0,
    created_at := 0, updated_at := 0, deleted := false }

/-- Snapshot with spent 850 against the 1000 category. -/
def exStateWarn : BudgetState :=
  { budget := none, incomes := [], categories := [exCat],
    transactions := [exTx850], loading := false }

/-- Snapshot with spent 1050 against the 1000 category. -/
def exStateOver : BudgetState :=
  { budget := none, incomes := [], categories := [exCat],
    transactions := [exTx850, exTx200], loading := false }

theorem C3_witness :
    (enrichCategory exStateWarn exCat).health = CategoryHealth.warning ∧
    (enrichCategory exStateOver exCat).health = CategoryHealth.overspent ∧
    (enrichCategory exStateOver exCat).remaining = -50 := by
  have h1 := C3_spent_remaining_health exStateWarn exCat (by decide)
  have h2 := C3_spent_remaining_health exStateOver exCat (by decide)
  have hs1 : (enrichCategory exStateWarn exCat).spent = 850 := by
    rw [h1.2.1]
    norm_num [exStateWarn, exTx850, exCat, List.filter_cons, List.filter_nil]
  have hs2 : (enrichCategory exStateOver exCat).spent = 1050 := by
    rw [h2.2.1]
    norm_num [exStateOver, exTx850, exTx200, exCat, List.filter_cons, List.filter_nil]
  have hh1 := h1.2.2.2.1
  have hh2 := h2.2.2.2.1
  have hr2 := h2.2.2.1
  rw [hs1] at hh1
  rw [hs2] at hh2
  rw [hs2] at hr2
  have hcond1 : ¬(exCat.budgeted + exCat.borrowed = 0) := by norm_num [exCat]
  have hcond2 : ¬((850 : ℚ) > exCat.budgeted + exCat.borrowed) := by norm_num [exCat]
  have hcond3 : (850 : ℚ) > 0.8 * (exCat.budgeted + exCat.borrowed) := by norm_num [exCat]
  have hcond4 : (1050 : ℚ) > exCat.budgeted + exCat.borrowed := by norm_num [exCat]
  rw [if_neg hcond1, if_neg hcond2, if_pos hcond3] at hh1
  rw [if_neg hcond1, if_pos hcond4] at hh2
  refine ⟨hh1, hh2, ?_⟩
  rw [hr2]
  norm_num [exCat]

/-! ## Claim C4: unplanned transactions and category_id -/

/-- The invariant claimed by C4: every unplanned transaction in the array
has an absent category_id. -/
def unplannedUncategorized (txs : List Transaction) : Prop :=
  ∀ tx ∈ txs, tx.is_unplanned = true → tx.category_id = none

/-- True for the add and delete operations, false for update. -/
def TxOp.isAddOrDelete : TxOp → Bool
  | TxOp.update _ _ _ => false
  | _ => true

/-- Budget used by the C4 example operations. -/
def exBudget : Budget :=
  { id := "b1", user_id := "u1", month := "2025-08", name := "My Budget",
    created_at := 0, updated_at := 0, deleted := false }

/-- A categorized, planned quick-add payload. -/
def exAddData : QuickAddData :=
  { amount := 10, category_id := "c1", description := "Lunch", account := "cash",
    is_unplanned := false, date := none }

/-- An unplanned quick-add payload that nevertheless passes a category. -/
def exUnplannedData : QuickAddData :=
  { amount := 25, category_id := "c1", description := "Taxi", account := "cash",
    is_unplanned := true, date := none }

/-- Claim C4 as stated is false: the state reached by adding a
categorized planned transaction and then calling updateTransaction with
only is_unplanned set to true contains a transaction that is both
unplanned and categorized (updateTransaction does not clear
category_id). -/
theorem C4_counterexample :
    ∃ tx ∈ ([TxOp.add exBudget exAddData "t1" 0,
        TxOp.update "t1" { is_unplanned := some true } 1].foldl applyTxOp []),
      tx.is_unplanned = true ∧ tx.category_id = some "c1" := by
  decide

theorem addTransaction_preserves {txs : List Transaction}
    (h0 : unplannedUncategorized txs) (b : Budget) (d : QuickAddData)
    (f : String) (n : Int) :
    unplannedUncategorized (addTransaction b d f n txs) := by
  intro tx htx hunp
  rcases List.mem_cons.mp htx with rfl | htx'
  · simp only [addTransaction] at hunp ⊢
    rw [hunp]
    simp
  · exact h0 tx htx' hunp

theorem deleteTransaction_preserves {txs : List Transaction}
    (h0 : unplannedUncategorized txs) (i : String) :
    unplannedUncategorized (deleteTransaction i txs) := by
  intro tx htx hunp
  exact h0 tx (List.mem_of_mem_filter htx) hunp

theorem foldl_addDelete_preserves :
    ∀ (ops : List TxOp) (txs : List Transaction), unplannedUncategorized txs →
      (∀ op ∈ ops, op.isAddOrDelete = true) →
      unplannedUncategorized (ops.foldl applyTxOp txs)
  | [], _, h0, _ => h0
  | op :: ops, txs, h0, hops => by
    have hstep : unplannedUncategorized (applyTxOp txs op) := by
      cases op with
      | add b d f n => exact addTransaction_preserves h0 b d f n
      | update i u n =>
        have := hops _ (List.mem_cons_self _ _)
        simp [TxOp.isAddOrDelete] at this
      | delete i => exact deleteTransaction_preserves h0 i
    exact foldl_addDelete_preserves ops (applyTxOp txs op) hstep
      (fun op' h' => hops op' (List.mem_cons_of_mem op h'))

/-- Claim C4, amended: addTransaction forces category_id to absent when
is_unplanned is true regardless of the category passed, and every state
reached from an invariant-satisfying state through addTransaction and
deleteTransaction operations keeps every unplanned transaction
uncategorized; updateTransaction, however, can produce a transaction
that is both unplanned and categorized (see the counterexample). -/
theorem C4_add_delete_invariant (txs : List Transaction) (ops : List TxOp)
    (h0 : unplannedUncategorized txs)
    (hops : ∀ op ∈ ops, op.isAddOrDelete = true) :
    unplannedUncategorized (ops.foldl applyTxOp txs) ∧
    (∀ (b : Budget) (d : QuickAddData) (f : String) (n : Int),
      d.is_unplanned = true →
      ∃ newTx, addTransaction b d f n txs = newTx :: txs ∧
        newTx.category_id = none) := by
  refine ⟨foldl_addDelete_preserves ops txs h0 hops, ?_⟩
  intro b d f n hunp
  refine ⟨_, rfl, ?_⟩
  simp only [addTransaction]
  rw [hunp]
  simp

theorem C4_witness :
    unplannedUncategorized ([TxOp.add exBudget exAddData "t1" 0,
      TxOp.delete "t1"].foldl applyTxOp []) ∧
    ∃ newTx, addTransaction exBudget exUnplannedData "t2" 3 [] = newTx :: [] ∧
      newTx.category_id = none := by
  have h := C4_add_delete_invariant [] [TxOp.add exBudget exAddData "t1" 0,
    TxOp.delete "t1"] (by simp [unplannedUncategorized]) (by decide)
  exact ⟨h.1, h.2 exBudget exUnplannedData "t2" 3 rfl⟩

/-! ## Claim C5: the pull step preserves local data on failure -/

/-- Stored plan (no budget yet) used by the C5 and C6 examples. -/
def exPlanNoBudget : PlanData :=
  { budget := none, incomes := [exIncomeL], categories := [exCatC2a] }

/-- Claim C5: on any failure of the pull-and-merge step, the plan stored
after the step has exactly the incomes and categories stored before it
(with a budget wrapper synthesized when the plan had none), and the
failure is reported to the caller; a month with no stored plan stays
without one. -/
theorem C5_pull_preserves_local_on_error (stored : Option PlanData) (e : SyncError)
    (freshBudget : Budget) :
    ((pullPlan stored (Except.error e) freshBudget).1).map PlanData.incomes =
      stored.map PlanData.incomes ∧
    ((pullPlan stored (Except.error e) freshBudget).1).map PlanData.categories =
      stored.map PlanData.categories ∧
    (pullPlan stored (Except.error e) freshBudget).2 = Except.error e ∧
    (∀ localPlan, stored = some localPlan →
      ((pullPlan stored (Except.error e) freshBudget).1).bind PlanData.budget =
        some (localPlan.budget.getD freshBudget)) := by
  cases stored with
  | none =>
    refine ⟨rfl, rfl, rfl, ?_⟩
    intro lp h
    cases h
  | some lp =>
    refine ⟨rfl, rfl, rfl, ?_⟩
    intro lp' h
    cases h
    rfl

theorem C5_witness :
    ((pullPlan (some exPlanNoBudget) (Except.error SyncError.network) exBudget).1).map
      PlanData.incomes = (some exPlanNoBudget).map PlanData.incomes ∧
    ((pullPlan (some exPlanNoBudget) (Except.error SyncError.network) exBudget).1).bind
      PlanData.budget = some (exPlanNoBudget.budget.getD exBudget) := by
  have h := C5_pull_preserves_local_on_error (some exPlanNoBudget) SyncError.network exBudget
  exact ⟨h.1, h.2.2.2 exPlanNoBudget rfl⟩

/-! ## Claim C6: fullSync, lastSync and the sync-unavailable condition -/

/-- Claim C6 as stated is false: with the remote part of the pull step
failing (which covers an ensure-budget failure, since ensureBudget is
called inside pullPlan), fullSync still completes normally - no "Sync
unavailable" error - and sets lastSync; the failure is swallowed by
fullSync's internal pull handler. -/
theorem C6_counterexample :
    (fullSync (some exPlanNoBudget) (Except.ok ()) (Except.error SyncError.network)
      (Except.ok ()) exBudget exBudget
      { lastSync := none, pendingChanges := [] } 5).2.2 = Except.ok () ∧
    (fullSync (some exPlanNoBudget) (Except.ok ()) (Except.error SyncError.network)
      (Except.ok ()) exBudget exBudget
      { lastSync := none, pendingChanges := [] } 5).2.1.lastSync = some 5 := by
  exact ⟨rfl, rfl⟩

/-- Claim C6, amended: as long as the local key-value operations succeed
(the model's standing assumption), fullSync sets lastSync to now and
completes normally for every outcome of the push, pull/merge (including
ensure-budget) and transaction-sync steps; in particular an ensure-budget
failure inside the pull step does not surface a "sync unavailable"
condition, which the source reserves for failures escaping the per-step
handlers. -/
theorem C6_lastSync_always_set (stored : Option PlanData)
    (pushOutcome : Except SyncError Unit) (remote : Except SyncError RemotePull)
    (txSyncOutcome : Except SyncError Unit) (freshBudget freshBudget2 : Budget)
    (syncState : SyncState) (now : Int) :
    (fullSync stored pushOutcome remote txSyncOutcome freshBudget freshBudget2
      syncState now).2.1.lastSync = some now ∧
    (fullSync stored pushOutcome remote txSyncOutcome freshBudget freshBudget2
      syncState now).2.2 = Except.ok () ∧
    (fullSync stored pushOutcome remote txSyncOutcome freshBudget freshBudget2
      syncState now).2.1.pendingChanges = syncState.pendingChanges := by
  exact ⟨rfl, rfl, rfl⟩

/-! ## Claim C7: the amount that should be in bank -/

/-- First category of the C7 scenario: budgeted 2000. -/
def exC7CatA : Category :=
  { id := "c1", budget_id := "b1", name := "Rent", budgeted := 2000, borrowed := 0,
    color := "#fff", created_at := 0, updated_at := 0, deleted := false }

/-- Second category of the C7 scenario: budgeted 1000. -/
def exC7CatB : Category :=
  { id := "c2", budget_id := "b1", name := "Food", budgeted := 1000, borrowed := 0,
    color := "#fff", created_at := 0, updated_at := 0, deleted := false }

/-- Planned spending of 1500. -/
def exC7Tx1 : Transaction :=
  { id := "t1", budget_id := "b1", category_id := some "c1", amount := 1500,
    description := "Rent", account := "bank", is_unplanned := false, date := 0,
    created_at := 0, updated_at := 0, deleted := false }

/-- Unplanned spending of 500. -/
def exC7Tx2 : Transaction :=
  { id := "t2", budget_id := "b1", category_id := none, amount := 500,
    description := "Repair", account := "bank", is_unplanned := true, date := 0,
    created_at := 0, updated_at := 0, deleted := false }

/-- Scenario state: totalBudgeted 3000, totalSpent 2000 of which 500 unplanned. -/
def exC7State : BudgetState :=
  { budget := none, incomes := [], categories := [exC7CatA, exC7CatB],
    transactions := [exC7Tx1, exC7Tx2], loading := false }

/-- Claim C7: the amount-that-should-be-in-bank selector returns
(totalBudgeted - totalSpent) - totalUnplannedSpent, with totalBudgeted
the sum over categories of budgeted + borrowed, totalSpent the sum of all
transaction amounts in the snapshot, and totalUnplannedSpent the sum of
the unplanned amounts; on the scenario state (3000, 2000, 500) it
returns 500. -/
theorem C7_budget_remaining :
    (∀ s : BudgetState, getBudgetRemaining s =
      ((s.categories.map (fun c => c.budgeted + c.borrowed)).sum
        - (s.transactions.map Transaction.amount).sum)
        - ((s.transactions.filter (fun tx => tx.is_unplanned)).map
            Transaction.amount).sum) ∧
    getBudgetRemaining exC7State = 500 := by
  have hgen : ∀ s : BudgetState, getBudgetRemaining s =
      ((s.categories.map (fun c => c.budgeted + c.borrowed)).sum
        - (s.transactions.map Transaction.amount).sum)
        - ((s.transactions.filter (fun tx => tx.is_unplanned)).map
            Transaction.amount).sum := by
    intro s
    unfold getBudgetRemaining getTotalBudgeted getTotalSpent getTotalUnplannedSpent
    rw [foldl_add_eq_sum, foldl_add_eq_sum, foldl_add_eq_sum, zero_add, zero_add,
      zero_add]
  refine ⟨hgen, ?_⟩
  rw [hgen exC7State]
  norm_num [exC7State, exC7CatA, exC7CatB, exC7Tx1, exC7Tx2, List.filter_cons,
    List.filter_nil]

/-! ## Claim C8: copyFromPreviousMonth -/

theorem copyIncomes_length (bid : String) (gen : Nat → String) (now : Int) :
    ∀ (i : Nat) (pl : List Income), (copyIncomes bid gen now i pl).length = pl.length
  | _, [] => rfl
  | i, _ :: pl => by
    simp only [copyIncomes, List.length_cons]
    rw [copyIncomes_length bid gen now (i + 1) pl]

theorem copyCategories_length (bid : String) (gen : Nat → String) (now : Int) :
    ∀ (i : Nat) (pl : List Category), (copyCategories bid gen now i pl).length = pl.length
  | _, [] => rfl
  | i, _ :: pl => by
    simp only [copyCategories, List.length_cons]
    rw [copyCategories_length bid gen now (i + 1) pl]

theorem copyIncomes_mem (bid : String) (gen : Nat → String) (now : Int) :
    ∀ (i : Nat) (pl : List Income) (x : Income), x ∈ copyIncomes bid gen now i pl →
      ∃ (k : Nat) (inc : Income), inc ∈ pl ∧
        x = { inc with
          id := gen k
          budget_id := bid
          created_at := now
          updated_at := now }
  | _, [], _, hx => absurd hx (List.not_mem_nil _)
  | i, inc :: pl, x, hx => by
    rcases List.mem_cons.mp hx with rfl | hx'
    · exact ⟨i, inc, List.mem_cons_self inc pl, rfl⟩
    · obtain ⟨k, inc', hmem, heq⟩ := copyIncomes_mem bid gen now (i + 1) pl x hx'
      exact ⟨k, inc', List.mem_cons_of_mem inc hmem, heq⟩

theorem copyCategories_mem (bid : String) (gen : Nat → String) (now : Int) :
    ∀ (i : Nat) (pl : List Category) (x : Category), x ∈ copyCategories bid gen now i pl →
      ∃ (k : Nat) (cat : Category), cat ∈ pl ∧
        x = { cat with
          id := gen k
          budget_id := bid
          borrowed := 0
          created_at := now
          updated_at := now }
  | _, [], _, hx => absurd hx (List.not_mem_nil _)
  | i, cat :: pl, x, hx => by
    rcases List.mem_cons.mp hx with rfl | hx'
    · exact ⟨i, cat, List.mem_cons_self cat pl, rfl⟩
    · obtain ⟨k, cat', hmem, heq⟩ := copyCategories_mem bid gen now (i + 1) pl x hx'
      exact ⟨k, cat', List.mem_cons_of_mem cat hmem, heq⟩

/-- Claim C8: with a current budget in state, copyFromPreviousMonth fails
with the "no previous data" condition when the source month has no stored
plan; when a source plan exists it appends (never replaces) copies of
each selected dimension: copy counts equal source counts, each income
copy carries a generated id, the current budget as owner and fresh
timestamps, each category copy additionally has borrowed reset to 0, the
unselected dimensions are unchanged, and generated ids that avoid the
source ids make every copy's id distinct from every original's. -/
theorem C8_copy_from_previous_month (st : BudgetState) (b : Budget)
    (options : CopyOptions) (genI genC : Nat → String) (now : Int)
    (hb : st.budget = some b) :
    (copyFromPreviousMonth st none options genI genC now =
      Except.error "No previous month data found") ∧
    (∀ pp : PlanData, ∃ st',
      copyFromPreviousMonth st (some pp) options genI genC now = Except.ok st' ∧
      st'.budget = st.budget ∧ st'.transactions = st.transactions ∧
      (options.incomes = true →
        st'.incomes = st.incomes ++ copyIncomes b.id genI now 0 pp.incomes ∧
        st'.incomes.length = st.incomes.length + pp.incomes.length) ∧
      (options.incomes = false → st'.incomes = st.incomes) ∧
      (options.categories = true →
        st'.categories = st.categories ++ copyCategories b.id genC now 0 pp.categories ∧
        st'.categories.length = st.categories.length + pp.categories.length) ∧
      (options.categories = false → st'.categories = st.categories)) ∧
    (∀ (i : Nat) (pl : List Income) (x : Income), x ∈ copyIncomes b.id genI now i pl →
      x.budget_id = b.id ∧ x.created_at = now ∧ x.updated_at = now ∧
      ∃ (k : Nat) (inc : Income), inc ∈ pl ∧ x.id = genI k ∧ x.name = inc.name ∧
        x.amount = inc.amount) ∧
    (∀ (i : Nat) (pl : List Category) (x : Category),
      x ∈ copyCategories b.id genC now i pl →
      x.borrowed = 0 ∧ x.budget_id = b.id ∧ x.created_at = now ∧ x.updated_at = now ∧
      ∃ (k : Nat) (cat : Category), cat ∈ pl ∧ x.id = genC k ∧ x.name = cat.name ∧
        x.budgeted = cat.budgeted) ∧
    (∀ (i : Nat) (pl : List Income) (x : Income),
      (∀ k : Nat, genI k ∉ pl.map Income.id) →
      x ∈ copyIncomes b.id genI now i pl → x.id ∉ pl.map Income.id) := by
  refine ⟨?_, ?_, ?_, ?_, ?_⟩
  · simp [copyFromPreviousMonth, hb]
  · intro pp
    simp only [copyFromPreviousMonth, hb]
    refine ⟨_, rfl, rfl, rfl, ?_, ?_, ?_, ?_⟩
    · intro hI
      by_cases hEmpty : pp.incomes.isEmpty
      · have hnil : pp.incomes = [] := List.isEmpty_iff.mp hEmpty
        constructor
        · simp [hI, hEmpty, hnil, copyIncomes]
        · simp [hI, hEmpty, hnil]
      · have hEmpty' : pp.incomes.isEmpty = false := by
          cases h : pp.incomes.isEmpty with
          | false => rfl
          | true => exact absurd h hEmpty
        constructor
        · simp [hI, hEmpty']
        · simp [hI, hEmpty', List.length_append, copyIncomes_length]
    · intro hI
      simp [hI]
    · intro hC
      by_cases hEmpty : pp.categories.isEmpty
      · have hnil : pp.categories = [] := List.isEmpty_iff.mp hEmpty
        constructor
        · simp [hC, hEmpty, hnil, copyCategories]
        · simp [hC, hEmpty, hnil]
      · have hEmpty' : pp.categories.isEmpty = false := by
          cases h : pp.categories.isEmpty with
          | false => rfl
          | true => exact absurd h hEmpty
        constructor
        · simp [hC, hEmpty']
        · simp [hC, hEmpty', List.length_append, copyCategories_length]
    · intro hC
      simp [hC]
  · intro i pl x hx
    obtain ⟨k, inc, hmem, heq⟩ := copyIncomes_mem b.id genI now i pl x hx
    subst heq
    exact ⟨rfl, rfl, rfl, k, inc, hmem, rfl, rfl, rfl⟩
  · intro i pl x hx
    obtain ⟨k, cat, hmem, heq⟩ := copyCategories_mem b.id genC now i pl x hx
    subst heq
    exact ⟨rfl, rfl, rfl, rfl, k, cat, hmem, rfl, rfl, rfl⟩
  · intro i pl x hfresh hx
    obtain ⟨k, inc, hmem, heq⟩ := copyIncomes_mem b.id genI now i pl x hx
    subst heq
    exact hfresh k

/-- Current-month state of the C8 witness. -/
def exC8State : BudgetState :=
  { budget := some exBudget, incomes := [exIncomeL], categories := [exCatC2a],
    transactions := [], loading := false }

/-- Source plan of the C8 witness: 2 incomes, 3 categories. -/
def exC8Prev : PlanData :=
  { budget := none, incomes := [exIncomeR, exIncomeR2],
    categories := [exCatC2a, exCatC2b, exC7CatA] }

/-- Fresh income-id generator of the C8 witness. -/
def exGenI : Nat → String := fun k => toString (k + 100)

/-- Fresh category-id generator of the C8 witness. -/
def exGenC : Nat → String := fun k => toString (k + 200)

theorem C8_witness :
    ∃ st', copyFromPreviousMonth exC8State (some exC8Prev)
        { incomes := true, categories := false } exGenI exGenC 9 = Except.ok st' ∧
      st'.incomes.length = exC8State.incomes.length + exC8Prev.incomes.length ∧
      st'.categories = exC8State.categories := by
  obtain ⟨st', hok, _, _, hinc, _, _, hcatF⟩ :=
    (C8_copy_from_previous_month exC8State exBudget
      { incomes := true, categories := false } exGenI exGenC 9 rfl).2.1 exC8Prev
  exact ⟨st', hok, (hinc rfl).2, hcatF rfl⟩

/-! ## Claim C9: transaction pattern learning -/

instance : IsTotal TransactionPattern patternOrder := by
  refine ⟨fun a b => ?_⟩
  rcases Nat.lt_trichotomy a.count b.count with h | h | h
  · exact Or.inr (Or.inl h)
  · rcases le_total b.last_used a.last_used with h2 | h2
    · exact Or.inl (Or.inr ⟨h, h2⟩)
    · exact Or.inr (Or.inr ⟨h.symm, h2⟩)
  · exact Or.inl (Or.inl h)

instance : IsTrans TransactionPattern patternOrder := by
  refine ⟨fun a b c hab hbc => ?_⟩
  rcases hab with h1 | ⟨h1, h2⟩ <;> rcases hbc with h3 | ⟨h3, h4⟩
  · exact Or.inl (lt_trans h3 h1)
  · exact Or.inl (h3 ▸ h1)
  · exact Or.inl (h1 ▸ h3)
  · exact Or.inr ⟨h1.trans h3, le_trans h4 h2⟩

/-- Quick-add payload of the C9 scenario: same description and category,
varying amount. -/
def exCoffeeData (amt : ℚ) : QuickAddData :=
  { amount := amt, category_id := "c1", description := "Coffee", account := "cash",
    is_unplanned := false, date := none }

/-- The C9 scenario: the same (Coffee, c1) transaction added three times
with amounts 10, 20, 30, starting from empty stores. -/
def coffeeScenario : List Transaction × List TransactionPattern :=
  addTransactionFull exBudget (exCoffeeData 30) "t3" "p3" 2
    (addTransactionFull exBudget (exCoffeeData 20) "t2" "p2" 1
      (addTransactionFull exBudget (exCoffeeData 10) "t1" "p1" 0 ([], [])))

/-- The pattern produced by the C9 scenario: count 3, last amount 30. -/
def coffeePattern : TransactionPattern :=
  { id := "p1", description := "Coffee", category_id := "c1", count := 3,
    last_amount := 30, last_used := 2, created_at := 0, updated_at := 2 }

/-- Snapshot whose categories contain the scenario's category c1 (Food). -/
def exC9State : BudgetState :=
  { budget := some exBudget, incomes := [], categories := [exCatC2a],
    transactions := coffeeScenario.1, loading := false }

/-- Claim C9: updatePattern inserts a fresh (description, category) pattern
with count 1, or increments the matching pattern's count and overwrites
last_amount and last_used, leaving the others; frequent-pattern retrieval
returns only patterns with count at least 3, sorted by count descending
then last_used descending, and the store-level retrieval keeps only
entries whose category still exists; after adding the same (Coffee, c1)
transaction three times with amounts 10, 20, 30, retrieval returns exactly
one entry for the pair with count 3 and last_amount 30. -/
theorem C9_pattern_learning :
    (∀ (pats : List TransactionPattern) (desc cid : String) (amt : ℚ) (now : Int)
      (fid : String),
      pats.find? (fun p => p.description == desc && p.category_id == cid) = none →
      ∃ newP, updatePattern desc cid amt now fid pats = pats ++ [newP] ∧
        newP.count = 1 ∧ newP.last_amount = amt ∧ newP.description = desc ∧
        newP.category_id = cid) ∧
    (∀ (pats : List TransactionPattern) (desc cid : String) (amt : ℚ) (now : Int)
      (fid : String) (p0 : TransactionPattern),
      pats.find? (fun p => p.description == desc && p.category_id == cid) = some p0 →
      (updatePattern desc cid amt now fid pats).length = pats.length ∧
      ∀ p ∈ pats,
        (p.description = desc ∧ p.category_id = cid →
          { p with count := p.count + 1, last_amount := amt, last_used := now, updated_at := now } ∈
            updatePattern desc cid amt now fid pats) ∧
        (¬(p.description = desc ∧ p.category_id = cid) →
          p ∈ updatePattern desc cid amt now fid pats)) ∧
    (∀ (pats : List TransactionPattern), ∀ p ∈ dbGetFrequentPatterns pats,
      3 ≤ p.count ∧ p ∈ pats) ∧
    (∀ pats : List TransactionPattern,
      (dbGetFrequentPatterns pats).Pairwise patternOrder) ∧
    (∀ (s : BudgetState) (pats : List TransactionPattern),
      ∀ entry ∈ storeGetFrequentPatterns s pats,
        ∃ c ∈ s.categories, c.id = entry.categoryId) ∧
    (dbGetFrequentPatterns coffeeScenario.2 = [coffeePattern] ∧ coffeePattern.count = 3 ∧
      coffeePattern.last_amount = 30 ∧ coffeePattern.description = "Coffee" ∧
      coffeePattern.category_id = "c1") ∧
    storeGetFrequentPatterns exC9State coffeeScenario.2 =
      [{ description := "Coffee", categoryName := "Food", amount := 30, categoryId := "c1" }] := by
  refine ⟨?_, ?_, ?_, ?_, ?_, ?_, ?_⟩
  · intro pats desc cid amt now fid hfind
    unfold updatePattern
    rw [hfind]
    exact ⟨_, rfl, rfl, rfl, rfl, rfl⟩
  · intro pats desc cid amt now fid p0 hfind
    unfold updatePattern
    rw [hfind]
    refine ⟨List.length_map _ _, ?_⟩
    intro p hp
    constructor
    · intro hmatch
      refine List.mem_map.mpr ⟨p, hp, ?_⟩
      rw [if_pos (by simp [hmatch.1, hmatch.2])]
    · intro hne
      refine List.mem_map.mpr ⟨p, hp, ?_⟩
      rw [if_neg ?_]
      intro hb
      rw [Bool.and_eq_true, beq_iff_eq, beq_iff_eq] at hb
      exact hne hb
  · intro pats p hp
    unfold dbGetFrequentPatterns at hp
    have h1 := List.mem_of_mem_take hp
    have h2 := (List.perm_insertionSort patternOrder _).mem_iff.mp h1
    obtain ⟨hmem, hcount⟩ := List.mem_filter.mp h2
    exact ⟨by simpa using hcount, hmem⟩
  · intro pats
    unfold dbGetFrequentPatterns
    exact List.Pairwise.sublist (List.take_sublist _ _)
      (List.sorted_insertionSort patternOrder _)
  · intro s pats entry hentry
    unfold storeGetFrequentPatterns at hentry
    obtain ⟨hmem, hname⟩ := List.mem_filter.mp hentry
    obtain ⟨pattern, hpat, hentry'⟩ := List.mem_map.mp hmem
    cases hfind : s.categories.find? (fun c => c.id == pattern.category_id) with
    | none =>
      rw [hfind] at hentry'
      subst hentry'
      simp at hname
    | some c =>
      rw [hfind] at hentry'
      subst hentry'
      have hc := List.mem_of_find?_eq_some hfind
      have hcid := List.find?_some hfind
      exact ⟨c, hc, by simpa using hcid⟩
  · decide
  · decide

theorem C9_witness :
    ∃ newP, updatePattern "Coffee" "c1" 10 0 "p1" [] = [] ++ [newP] ∧
      newP.count = 1 ∧ newP.last_amount = 10 ∧ newP.description = "Coffee" ∧
      newP.category_id = "c1" :=
  C9_pattern_learning.1 [] "Coffee" "c1" 10 0 "p1" rfl

end BudgetBoss
